import Mathlib

/-!
Verification development for the agriculture-wise-sage chat front-end.

The embedding follows the TypeScript sources:
  - `src/hooks/use-voice.ts` — voice capture state machine, speech playback
    (sanitizer, voice selection, mute handling);
  - `src/pages/Index.tsx` (and its variant in `unnamed/part_001`) — the
    conversation orchestrator (`send` / `upsertAssistant`, guards, clearing).

The stream client `src/lib/chat-stream.ts` is referenced by the orchestrator
but its source is not in the repository snapshot; where a property depends on
its callback discipline, that discipline is modelled from the specification
and marked as such in the doc comment of the definition.
-/

/-! ## JS string utilities used by the sources -/

/-- Whitespace test used to model the JS regex class `\s` and `String.trim`
(ASCII part: space, tab, line feed, carriage return, vertical tab, form feed). -/
def isWsChar (c : Char) : Bool :=
  c = ' ' || c = '\t' || c = '\n' || c = '\r' || c = Char.ofNat 11 || c = Char.ofNat 12

/-- Drop leading whitespace, modelling the front half of JS `String.trim`. -/
def ltrimC (l : List Char) : List Char := l.dropWhile isWsChar

/-- Drop trailing whitespace, modelling the back half of JS `String.trim`. -/
def rtrimC (l : List Char) : List Char := (l.reverse.dropWhile isWsChar).reverse

/-- JS `String.trim` on a character list: both ends stripped of whitespace. -/
def trimChars (l : List Char) : List Char := rtrimC (ltrimC l)

/-- JS `String.prototype.trim`. -/
def trimS (s : String) : String := ⟨trimChars s.data⟩

/-- Concatenation of a list of strings in order (the accumulated stream text). -/
def concatAll : List String → String
  | [] => ""
  | d :: ds => d ++ concatAll ds

theorem head?_dropWhile_not (p : Char → Bool) (l : List Char) (a : Char)
    (h : (l.dropWhile p).head? = some a) : p a = false := by
  induction l with
  | nil => simp [List.dropWhile] at h
  | cons b t ih =>
    rw [List.dropWhile_cons] at h
    split at h
    · exact ih h
    · next hb => simp at h; subst h; simpa using hb

theorem dropWhile_of_head_not (p : Char → Bool) (l : List Char)
    (h : ∀ a, l.head? = some a → p a = false) : l.dropWhile p = l := by
  cases l with
  | nil => rfl
  | cons b t =>
    rw [List.dropWhile_cons]
    simp [h b rfl]

theorem getLast?_dropWhile_of_ne_nil (p : Char → Bool) (l : List Char)
    (h : l.dropWhile p ≠ []) : (l.dropWhile p).getLast? = l.getLast? := by
  induction l with
  | nil => simp [List.dropWhile] at h
  | cons b t ih =>
    rw [List.dropWhile_cons]
    rw [List.dropWhile_cons] at h
    split
    · next hb =>
      rw [hb] at h
      simp only [if_pos rfl] at h
      rw [ih h]
      have ht : t ≠ [] := by
        intro he
        exact h (by simp [he, List.dropWhile])
      cases t with
      | nil => exact absurd rfl ht
      | cons c u => simp [List.getLast?_cons_cons]
    · rfl

theorem trimChars_idem (l : List Char) : trimChars (trimChars l) = trimChars l := by
  unfold trimChars
  set u := ltrimC l with hu
  by_cases hnil : rtrimC u = []
  · rw [hnil]
    simp [ltrimC, rtrimC, List.dropWhile]
  · have hhead : ∀ a, (rtrimC u).head? = some a → isWsChar a = false := by
      intro a ha
      unfold rtrimC at ha
      rw [List.head?_reverse] at ha
      have hdw : u.reverse.dropWhile isWsChar ≠ [] := by
        intro he
        exact hnil (by unfold rtrimC; rw [he]; rfl)
      rw [getLast?_dropWhile_of_ne_nil _ _ hdw] at ha
      rw [List.getLast?_reverse] at ha
      unfold ltrimC at hu
      rw [hu] at ha
      exact head?_dropWhile_not _ _ _ ha
    have hlast : ∀ a, (rtrimC u).getLast? = some a → isWsChar a = false := by
      intro a ha
      unfold rtrimC at ha
      rw [List.getLast?_reverse] at ha
      exact head?_dropWhile_not _ _ _ ha
    have h1 : ltrimC (rtrimC u) = rtrimC u := dropWhile_of_head_not _ _ hhead
    rw [h1]
    have h2 : (rtrimC u).reverse.dropWhile isWsChar = (rtrimC u).reverse := by
      refine dropWhile_of_head_not isWsChar (rtrimC u).reverse ?_
      intro a ha
      rw [List.head?_reverse] at ha
      exact hlast a ha
    calc rtrimC (rtrimC u) = ((rtrimC u).reverse.dropWhile isWsChar).reverse := rfl
      _ = (rtrimC u).reverse.reverse := by rw [h2]
      _ = rtrimC u := List.reverse_reverse _

theorem trimS_idem (s : String) : trimS (trimS s) = trimS s := by
  unfold trimS
  exact congrArg String.mk (trimChars_idem s.data)

/-! ## Speech playback sanitizer — `use-voice.ts`, `speak`, lines 161-167

The source applies five steps in order:
  `.replace(/[#*_~`>]/g, "")` then `.replace(/\[([^\]]+)\]\([^)]+\)/g, "$1")`
  then `.replace(/\n+/g, ". ")` then `.replace(/\s+/g, " ")` then `.trim()`.
-/

/-- The characters removed by the first replace (the backquote written
numerically). -/
def mdMarks : List Char := ['#', '*', '_', '~', Char.ofNat 96, '>']

/-- First replace: delete every emphasis/heading/quote marker character. -/
def stripMarks (l : List Char) : List Char := l.filter (fun c => !(mdMarks.contains c))

/-- Second replace, on fuel (the fuel is set to the input length, and every
step consumes at least one character, so it never runs out): scan for
`[text](url)` with non-empty bracket and paren bodies, emit `text`; on a
failed match emit the bracket and rescan from the next character, as the JS
global regex does. -/
def collapseLinksF : Nat → List Char → List Char
  | 0, l => l
  | _ + 1, [] => []
  | f + 1, c :: rest =>
    if c = '[' then
      match rest.dropWhile (fun x => !(x = ']')) with
      | ']' :: '(' :: rest3 =>
        if rest.takeWhile (fun x => !(x = ']')) = [] then
          '[' :: collapseLinksF f rest
        else
          match rest3.dropWhile (fun x => !(x = ')')) with
          | ')' :: rest5 =>
            if rest3.takeWhile (fun x => !(x = ')')) = [] then
              '[' :: collapseLinksF f rest
            else
              rest.takeWhile (fun x => !(x = ']')) ++ collapseLinksF f rest5
          | _ => '[' :: collapseLinksF f rest
      | _ => '[' :: collapseLinksF f rest
    else
      c :: collapseLinksF f rest

/-- Second replace: collapse markdown links to their text. -/
def collapseLinks (l : List Char) : List Char := collapseLinksF l.length l

/-- Third replace: each maximal run of line feeds becomes a sentence break
`". "`. The flag records being inside a run. -/
def collapseNl : Bool → List Char → List Char
  | _, [] => []
  | inRun, c :: rest =>
    if c = '\n' then
      if inRun then collapseNl true rest
      else '.' :: ' ' :: collapseNl true rest
    else
      c :: collapseNl false rest

/-- Fourth replace: each maximal run of whitespace becomes one space. -/
def collapseWsRun : Bool → List Char → List Char
  | _, [] => []
  | inRun, c :: rest =>
    if isWsChar c then
      if inRun then collapseWsRun true rest
      else ' ' :: collapseWsRun true rest
    else
      c :: collapseWsRun false rest

/-- The full sanitization chain of `speak` (`use-voice.ts` lines 162-167). -/
def sanitize (s : String) : String :=
  ⟨trimChars (collapseWsRun false (collapseNl false (collapseLinks (stripMarks s.data))))⟩

/-! ## Voice selection — `use-voice.ts`, `findVoice`, lines 27-40 -/

/-- A speech-synthesis voice as the source uses it: a name and a BCP-47 tag. -/
structure SynthVoice where
  name : String
  lang : String
deriving DecidableEq

/-- JS `lang.split("-")[0]`: the primary language subtag. -/
def primarySubtag (lang : String) : String := ⟨lang.data.takeWhile (fun c => !(c = '-'))⟩

/-- JS `v.lang.startsWith(p)`. -/
def langStarts (v p : String) : Bool := p.data.isPrefixOf v.data

/-- `findVoice` of `use-voice.ts`: exact tag match, else tag starting with the
primary subtag, else any English-tagged voice, else none. -/
def findVoice (voices : List SynthVoice) (lang : String) : Option SynthVoice :=
  match voices.find? (fun v => v.lang == lang) with
  | some v => some v
  | none =>
    match voices.find? (fun v => langStarts v.lang (primarySubtag lang)) with
    | some v => some v
    | none =>
      match voices.find? (fun v => langStarts v.lang ("en")) with
      | some v => some v
      | none => none

/-! ## Voice playback — `use-voice.ts`, `speak` (155-201), `stopSpeaking`
(204-210), `toggleMute` (213-222) -/

/-- Mute flag and speaking flag of the playback controller. -/
structure PlayState where
  isMuted : Bool
  isSpeaking : Bool
deriving DecidableEq

/-- `toggleMute` (lines 213-222): flip the flag; when transitioning into
muted, also cancel playback (the returned Bool records whether
`synthRef.current?.cancel()` ran) and clear the speaking flag. -/
def toggleMute (s : PlayState) : PlayState × Bool :=
  if s.isMuted = false then ({ isMuted := true, isSpeaking := false }, true)
  else ({ isMuted := false, isSpeaking := s.isSpeaking }, false)

/-- Environment of one `speak` call: the mute flag, availability of the
synthesis capability, the voice catalog at call time, and the time (if ever)
at which the platform fires `onvoiceschanged` after the call. -/
structure SpeakEnv where
  muted : Bool
  synthAvailable : Bool
  voicesAtCall : List SynthVoice
  voicesReadyAt : Option Nat
deriving DecidableEq

/-- Observable effects of one `speak` call: how many times
`synthRef.current.cancel()` ran, and the times at which `trySpeak` executed
(each execution queues one utterance on the engine). -/
structure SpeakResult where
  cancelCalls : Nat
  utterStarts : List Nat
deriving DecidableEq

/-- The fallback timer delay of `speak` (line 195): 500 ms. -/
def speakFallbackMs : Nat := 500

/-- One `speak(text)` call (`use-voice.ts` lines 155-199). Guard: return at
once when muted or synthesis is unavailable. Otherwise cancel (this happens
before sanitization), sanitize, and return when the clean text is empty.
With a non-empty catalog `trySpeak` runs immediately (time 0). With an empty
catalog the source registers an `onvoiceschanged` handler (which nulls itself
after firing once) and always arms a 500 ms timer; if the catalog becomes
ready at time `t` both the handler and the timer run `trySpeak`, otherwise
only the timer does. -/
def speakRun (env : SpeakEnv) (text : String) : SpeakResult :=
  if env.muted || !env.synthAvailable then ⟨0, []⟩
  else
    if sanitize text = "" then ⟨1, []⟩
    else
      if env.voicesAtCall.isEmpty then
        match env.voicesReadyAt with
        | some t =>
          if t ≤ speakFallbackMs then ⟨1, [t, speakFallbackMs]⟩
          else ⟨1, [speakFallbackMs, t]⟩
        | none => ⟨1, [speakFallbackMs]⟩
      else ⟨1, [0]⟩

/-! ## Voice capture — `use-voice.ts`, `startListening`, lines 61-152 -/

/-- The four UI states of the capture controller. -/
inductive VoiceState
  | idle
  | listening
  | processing
  | error
deriving DecidableEq

/-- How the platform recognition object behaves after `start()` is called:
it fires `onresult` with a transcript, fires `onerror` with a code, fires
`onend` without any result, stays silent forever, or `start()` itself throws
(the iOS gesture case). The unsupported-browser case is the separate
`ctorAvailable = false` parameter of the run, matching the early guard. -/
inductive RecBehavior
  | result (t : String)
  | errEvent (code : String)
  | ends
  | silent
  | startThrows

/-- Settlement of the promise returned by `startListening`. -/
inductive Outcome
  | resolved (t : String)
  | rejected (msg : String)
deriving DecidableEq

/-- The fixed no-result timeout of `startListening` (line 88): 10000 ms,
the 10 time units of the specification. -/
def listenTimeoutMs : Nat := 10000

/-- The message of the unsupported-browser rejection (lines 67-68). -/
def unsupportedMsg : String :=
  "Speech recognition is not supported in this browser. Please use Chrome, Edge, or Safari."

/-- The message of the timeout rejection (line 87). -/
def noSpeechTimeoutMsg : String := "No speech detected. Please try again."

/-- The message of the start-throw rejection (lines 144-145). -/
def gestureMsg : String := "Could not start microphone. Please tap the mic button to speak."

/-- The `switch (errorCode)` of `onerror` (lines 103-125), for codes other
than `aborted` which is handled before classification. -/
def classifyRecError (code : String) : String :=
  if code = "not-allowed" then
    "Microphone access denied. Please allow microphone permission in your browser settings and try again."
  else if code = "no-speech" then
    "No speech detected. Please speak clearly and try again."
  else if code = "network" then
    "Network error during speech recognition. Please check your internet connection."
  else if code = "audio-capture" then
    "No microphone found. Please connect a microphone and try again."
  else "Voice error: " ++ code

/-- Summary of one `startListening` invocation: the successive distinct
values taken by `voiceState` (starting from idle), the promise settlement,
whether `recognition.stop()` ran, the time at which a timer (rather than a
platform event) settled the promise, and the final `errorMessage`. -/
structure ListenRun where
  trace : List VoiceState
  outcome : Outcome
  stopCalled : Bool
  settleTime : Option Nat
  errorMessage : String
deriving DecidableEq

/-- One `startListening()` invocation (`use-voice.ts` lines 61-152), branch
by branch.  No constructor: state error, reject (lines 66-73).  Start throws:
listening was set first, then error (lines 139-149).  `onresult`: clear the
timeout, state processing, resolve, then idle after the 300 ms grace delay
(lines 90-96); the later `onend` keeps a non-listening state.  `onerror` with
code `aborted`: state idle, reject `"Cancelled"` (lines 119-122); any other
code: state error with the classified message (lines 98-130).  `onend`
without a result: back to idle (lines 132-137), and since that path never
clears the 10 s timeout, the timeout later rejects with the no-speech
message and calls `stop()` (lines 83-88); the same timeout path handles a
recognition object that stays silent. -/
def startListeningRun (ctorAvailable : Bool) (beh : RecBehavior) : ListenRun :=
  if ctorAvailable = false then
    ⟨[VoiceState.idle, VoiceState.error], Outcome.rejected unsupportedMsg, false, none, unsupportedMsg⟩
  else
    match beh with
    | RecBehavior.startThrows =>
      ⟨[VoiceState.idle, VoiceState.listening, VoiceState.error],
        Outcome.rejected gestureMsg, false, none, gestureMsg⟩
    | RecBehavior.result t =>
      ⟨[VoiceState.idle, VoiceState.listening, VoiceState.processing, VoiceState.idle],
        Outcome.resolved t, false, none, ""⟩
    | RecBehavior.errEvent code =>
      if code = "aborted" then
        ⟨[VoiceState.idle, VoiceState.listening, VoiceState.idle],
          Outcome.rejected ("Cancelled"), false, none, ""⟩
      else
        ⟨[VoiceState.idle, VoiceState.listening, VoiceState.error],
          Outcome.rejected (classifyRecError code), false, none, classifyRecError code⟩
    | RecBehavior.ends =>
      ⟨[VoiceState.idle, VoiceState.listening, VoiceState.idle],
        Outcome.rejected noSpeechTimeoutMsg, true, some listenTimeoutMs, ""⟩
    | RecBehavior.silent =>
      ⟨[VoiceState.idle, VoiceState.listening, VoiceState.idle],
        Outcome.rejected noSpeechTimeoutMsg, true, some listenTimeoutMs, ""⟩

/-- `clearError` (lines 225-228): unconditionally reset the state to idle and
clear the error message. -/
def clearError (_ : VoiceState × String) : VoiceState × String := (VoiceState.idle, "")

/-! ## Conversation orchestrator — `Index.tsx` / `unnamed/part_001`,
`KisanChat`: `send`, `upsertAssistant`, `clearChat` -/

/-- Message roles of the chat model. -/
inductive Role
  | user
  | assistant
deriving DecidableEq

/-- A chat message (`type Msg = { role, content }`). -/
structure OMsg where
  role : Role
  content : String
deriving DecidableEq

/-- `upsertAssistant` (`Index.tsx` lines 60-69): if the last message is an
assistant message, replace its content with the accumulated text, otherwise
append a fresh assistant message carrying it. -/
def upsertAssistant (soFar : String) (msgs : List OMsg) : List OMsg :=
  match msgs.getLast? with
  | some last =>
    if last.role = Role.assistant then msgs.dropLast ++ [⟨Role.assistant, soFar⟩]
    else msgs ++ [⟨Role.assistant, soFar⟩]
  | none => msgs ++ [⟨Role.assistant, soFar⟩]

/-- Orchestrator state: the message list, the loading flag, the in-flight
stream session (its id and the accumulated `assistantSoFar` buffer of the
`send` closure), the id counter, and the text-input field. -/
structure OrchSt where
  messages : List OMsg
  isLoading : Bool
  session : Option (Nat × String)
  nextId : Nat
  input : String
deriving DecidableEq

/-- Initial orchestrator state (`useState` initialisers of `KisanChat`). -/
def initSt : OrchSt := ⟨[], false, none, 0, ""⟩

/-- Events the orchestrator reacts to: a user submission, a stream delta for
the active session, graceful stream completion, clearing the chat, and
typing into the input field. -/
inductive OEvent
  | submit (text : String)
  | streamDelta (chunk : String)
  | streamDone
  | clearChat
  | setInput (s : String)
deriving DecidableEq

/-- One orchestrator step (`Index.tsx`).  `submit` is `send(text)` lines
51-79: no-op unless the trimmed text is non-empty and nothing is loading;
otherwise append the trimmed user message, clear the input, set loading, and
open a fresh stream session with an empty accumulator.  `streamDelta` is the
`onDelta` callback (line 76): with an active session, extend its accumulator
and upsert the assistant message; with no session (aborted), it is
suppressed.  `streamDone` is the `onDone` callback (line 77): close the
session and clear loading.  `clearChat` (lines 110-114) empties the message
list and aborts the in-flight request, whose abort handler clears loading. -/
def step (s : OrchSt) : OEvent → OrchSt
  | OEvent.submit t =>
    if trimS t = "" ∨ s.isLoading = true then s
    else
      { messages := s.messages ++ [⟨Role.user, trimS t⟩], isLoading := true,
        session := some (s.nextId, ""), nextId := s.nextId + 1, input := "" }
  | OEvent.streamDelta c =>
    match s.session with
    | some (id, so) =>
      { s with messages := upsertAssistant (so ++ c) s.messages, session := some (id, so ++ c) }
    | none => s
  | OEvent.streamDone =>
    match s.session with
    | some _ => { s with isLoading := false, session := none }
    | none => s
  | OEvent.clearChat =>
    { messages := [], isLoading := false, session := none, nextId := s.nextId, input := s.input }
  | OEvent.setInput v => { s with input := v }

/-- Run a list of events from a given state. -/
def runFrom (s : OrchSt) (evs : List OEvent) : OrchSt := evs.foldl step s

/-- Run a list of events from the initial state. -/
def runEvents (evs : List OEvent) : OrchSt := runFrom initSt evs

/-- Modelled from the spec: the source of `streamChat`
(`src/lib/chat-stream.ts`) is not in the repository snapshot, only its
callers.  Per the specification of the Chat Stream Client, a graceful
streamed turn invokes `onDelta` once per decoded delta in arrival order and
then `onDone` exactly once, after the last delta.  This is the event
sequence one such turn delivers to the orchestrator. -/
def turnEvents (text : String) (deltas : List String) : List OEvent :=
  OEvent.submit text :: (deltas.map OEvent.streamDelta ++ [OEvent.streamDone])

/-! ## Supporting lemmas -/

theorem upsertAssistant_last_assistant (soFar c : String) (base : List OMsg) :
    upsertAssistant soFar (base ++ [⟨Role.assistant, c⟩]) = base ++ [⟨Role.assistant, soFar⟩] := by
  unfold upsertAssistant
  rw [List.getLast?_concat]
  simp [List.dropLast_concat]

theorem upsertAssistant_last_user (soFar u : String) (base : List OMsg) :
    upsertAssistant soFar (base ++ [⟨Role.user, u⟩])
      = (base ++ [⟨Role.user, u⟩]) ++ [⟨Role.assistant, soFar⟩] := by
  unfold upsertAssistant
  rw [List.getLast?_concat]
  simp

theorem runFrom_deltas (ds : List String) (base : List OMsg) (c : String)
    (id n : Nat) (load : Bool) (inp : String) :
    runFrom ⟨base ++ [⟨Role.assistant, c⟩], load, some (id, c), n, inp⟩
        (ds.map OEvent.streamDelta)
      = ⟨base ++ [⟨Role.assistant, c ++ concatAll ds⟩], load,
          some (id, c ++ concatAll ds), n, inp⟩ := by
  induction ds generalizing c with
  | nil => simp [concatAll, runFrom]
  | cons d ds ih =>
    show runFrom (step _ (OEvent.streamDelta d)) (ds.map OEvent.streamDelta) = _
    rw [show step ⟨base ++ [⟨Role.assistant, c⟩], load, some (id, c), n, inp⟩
          (OEvent.streamDelta d)
        = ⟨base ++ [⟨Role.assistant, c ++ d⟩], load, some (id, c ++ d), n, inp⟩ by
      simp [step, upsertAssistant_last_assistant]]
    rw [ih (c ++ d)]
    simp [concatAll, String.append_assoc]

theorem step_submit_proceeds (s0 : OrchSt) (t : String)
    (ht : trimS t ≠ "") (hl : s0.isLoading = false) :
    step s0 (OEvent.submit t)
      = ⟨s0.messages ++ [⟨Role.user, trimS t⟩], true, some (s0.nextId, ""),
          s0.nextId + 1, ""⟩ := by
  simp [step, ht, hl]

theorem run_turn_full (s0 : OrchSt) (t d : String) (ds : List String)
    (ht : trimS t ≠ "") (hl : s0.isLoading = false) :
    runFrom s0 (OEvent.submit t :: (d :: ds).map OEvent.streamDelta)
      = ⟨s0.messages ++ [⟨Role.user, trimS t⟩, ⟨Role.assistant, concatAll (d :: ds)⟩], true,
          some (s0.nextId, concatAll (d :: ds)), s0.nextId + 1, ""⟩ := by
  show runFrom (step s0 (OEvent.submit t)) ((d :: ds).map OEvent.streamDelta) = _
  rw [step_submit_proceeds s0 t ht hl]
  show runFrom (step _ (OEvent.streamDelta d)) (ds.map OEvent.streamDelta) = _
  rw [show step ⟨s0.messages ++ [⟨Role.user, trimS t⟩], true, some (s0.nextId, ""),
        s0.nextId + 1, ""⟩ (OEvent.streamDelta d)
      = ⟨(s0.messages ++ [⟨Role.user, trimS t⟩]) ++ [⟨Role.assistant, d⟩], true,
          some (s0.nextId, d), s0.nextId + 1, ""⟩ by
    simp [step, upsertAssistant_last_user, String.empty_append]]
  rw [runFrom_deltas ds (s0.messages ++ [OMsg.mk Role.user (trimS t)]) d s0.nextId
        (s0.nextId + 1) true ""]
  simp [concatAll, List.append_assoc]

theorem run_sessLoad (evs : List OEvent) (s : OrchSt)
    (h : s.session.isSome = true → s.isLoading = true) :
    (runFrom s evs).session.isSome = true → (runFrom s evs).isLoading = true := by
  induction evs generalizing s with
  | nil => exact h
  | cons e evs ih =>
    show (runFrom (step s e) evs).session.isSome = true → _
    refine ih (step s e) ?_
    cases e with
    | submit t =>
      by_cases hg : trimS t = "" ∨ s.isLoading = true
      · simpa [step, hg] using h
      · simp [step, hg]
    | streamDelta c =>
      cases hs : s.session with
      | none => simp [step, hs]
      | some p =>
        obtain ⟨id, so⟩ := p
        simp only [step, hs]
        intro _
        exact h (by simp [hs])
    | streamDone =>
      cases hs : s.session with
      | none => simp [step, hs]
      | some p => simp [step, hs]
    | clearChat => simp [step]
    | setInput v => simpa [step] using h

theorem mem_upsertAssistant_user (m : OMsg) (soFar : String) (msgs : List OMsg)
    (hm : m ∈ upsertAssistant soFar msgs) (hr : m.role = Role.user) : m ∈ msgs := by
  unfold upsertAssistant at hm
  split at hm
  · split at hm
    · rcases List.mem_append.mp hm with h | h
      · exact List.dropLast_subset msgs h
      · simp at h
        rw [h] at hr
        simp at hr
    · rcases List.mem_append.mp hm with h | h
      · exact h
      · simp at h
        rw [h] at hr
        simp at hr
  · rcases List.mem_append.mp hm with h | h
    · exact h
    · simp at h
      rw [h] at hr
      simp at hr

theorem run_userClean (evs : List OEvent) (s : OrchSt)
    (h : ∀ m ∈ s.messages, m.role = Role.user → m.content ≠ "" ∧ trimS m.content = m.content) :
    ∀ m ∈ (runFrom s evs).messages, m.role = Role.user →
      m.content ≠ "" ∧ trimS m.content = m.content := by
  induction evs generalizing s with
  | nil => exact h
  | cons e evs ih =>
    show ∀ m ∈ (runFrom (step s e) evs).messages, _
    refine ih (step s e) ?_
    cases e with
    | submit t =>
      by_cases hg : trimS t = "" ∨ s.isLoading = true
      · simpa [step, hg] using h
      · simp only [step, if_neg hg]
        intro m hm hr
        rcases List.mem_append.mp hm with hold | hnew
        · exact h m hold hr
        · simp at hnew
          rw [hnew]
          have ht : ¬ trimS t = "" := fun he => hg (Or.inl he)
          exact ⟨ht, trimS_idem t⟩
    | streamDelta c =>
      cases hs : s.session with
      | none => simpa [step, hs] using h
      | some p =>
        obtain ⟨id, so⟩ := p
        simp only [step, hs]
        intro m hm hr
        exact h m (mem_upsertAssistant_user m (so ++ c) s.messages hm hr) hr
    | streamDone =>
      cases hs : s.session with
      | none => simpa [step, hs] using h
      | some p => simpa [step, hs] using h
    | clearChat => simp [step]
    | setInput v => simpa [step] using h

theorem count_done_map (ds : List String) :
    (ds.map OEvent.streamDelta).count OEvent.streamDone = 0 := by
  induction ds with
  | nil => rfl
  | cons d ds ih => simp [List.count_cons, ih]

/-! ## Claim theorems -/

/-- C1: in a streamed turn the user message is appended, after each delta
the open assistant message's content equals the concatenation of the deltas
received so far in arrival order, after the graceful end the final assistant
content is the concatenation of all deltas, and the turn's event sequence
contains the done signal exactly once, after the last delta. -/
theorem streamed_turn_accumulates (s0 : OrchSt) (text : String) (deltas : List String)
    (ht : trimS text ≠ "") (hl : s0.isLoading = false) (hne : deltas ≠ []) :
    (∀ i, 1 ≤ i → i ≤ deltas.length →
        (runFrom s0 (OEvent.submit text :: (deltas.take i).map OEvent.streamDelta)).messages
          = s0.messages ++ [⟨Role.user, trimS text⟩,
              ⟨Role.assistant, concatAll (deltas.take i)⟩]) ∧
    (runFrom s0 (turnEvents text deltas)).messages
        = s0.messages ++ [⟨Role.user, trimS text⟩, ⟨Role.assistant, concatAll deltas⟩] ∧
    (runFrom s0 (turnEvents text deltas)).isLoading = false ∧
    (runFrom s0 (turnEvents text deltas)).session = none ∧
    (turnEvents text deltas).count OEvent.streamDone = 1 ∧
    (turnEvents text deltas).getLast? = some OEvent.streamDone := by
  obtain ⟨d, ds, rfl⟩ : ∃ d ds, deltas = d :: ds := by
    cases deltas with
    | nil => exact absurd rfl hne
    | cons d ds => exact ⟨d, ds, rfl⟩
  have hmid : List.foldl step (step s0 (OEvent.submit text)) ((d :: ds).map OEvent.streamDelta)
      = ⟨s0.messages ++ [⟨Role.user, trimS text⟩, ⟨Role.assistant, concatAll (d :: ds)⟩], true,
          some (s0.nextId, concatAll (d :: ds)), s0.nextId + 1, ""⟩ := by
    have h := run_turn_full s0 text d ds ht hl
    simpa [runFrom] using h
  have hrun : runFrom s0 (turnEvents text (d :: ds))
      = ⟨s0.messages ++ [⟨Role.user, trimS text⟩, ⟨Role.assistant, concatAll (d :: ds)⟩], false,
          none, s0.nextId + 1, ""⟩ := by
    show List.foldl step s0
        (OEvent.submit text :: ((d :: ds).map OEvent.streamDelta ++ [OEvent.streamDone])) = _
    rw [List.foldl_cons, List.foldl_append, hmid]
    simp [step]
  refine ⟨?_, ?_, ?_, ?_, ?_, ?_⟩
  · intro i h1 h2
    cases i with
    | zero => omega
    | succ j =>
      rw [List.take_succ_cons]
      rw [run_turn_full s0 text d (ds.take j) ht hl]
  · rw [hrun]
  · rw [hrun]
  · rw [hrun]
  · show (OEvent.submit text :: ((d :: ds).map OEvent.streamDelta ++ [OEvent.streamDone])).count
        OEvent.streamDone = 1
    simp [List.count_cons, List.count_append, count_done_map]
  · show (OEvent.submit text :: ((d :: ds).map OEvent.streamDelta ++ [OEvent.streamDone])).getLast?
        = some OEvent.streamDone
    rw [← List.cons_append, List.getLast?_concat]

/-- Witness for C1 at the end-to-end scenario of the specification. -/
theorem streamed_turn_accumulates_witness :
    (runFrom initSt (turnEvents ("How do I apply for PM-KISAN?")
        (["Here", " are the steps..."]))).messages
      = [⟨Role.user, "How do I apply for PM-KISAN?"⟩,
          ⟨Role.assistant, "Here are the steps..."⟩] := by
  have h := streamed_turn_accumulates initSt ("How do I apply for PM-KISAN?")
    (["Here", " are the steps..."]) (by decide) (by decide) (by decide)
  rw [h.2.1]
  decide

/-- C6: at most one stream session is active per conversation — while a
session is active a new send is a no-op, so whenever a send actually starts
a new session there was no prior active session (hence no prior session's
deltas can interleave into the new assistant message). -/
theorem send_single_flight (evs : List OEvent) (t : String) :
    ((runEvents evs).session.isSome = true →
        step (runEvents evs) (OEvent.submit t) = runEvents evs) ∧
    ((step (runEvents evs) (OEvent.submit t)).session ≠ (runEvents evs).session →
        (runEvents evs).session = none ∧ (runEvents evs).isLoading = false) := by
  have hinv : (runEvents evs).session.isSome = true → (runEvents evs).isLoading = true :=
    run_sessLoad evs initSt (by simp [initSt])
  constructor
  · intro hs
    have hl := hinv hs
    simp [step, hl]
  · intro hch
    by_cases hl : (runEvents evs).isLoading = true
    · have heq : step (runEvents evs) (OEvent.submit t) = runEvents evs := by
        simp [step, hl]
      rw [heq] at hch
      exact absurd rfl hch
    · have hs : ¬ (runEvents evs).session.isSome = true := fun hs => hl (hinv hs)
      exact ⟨Option.not_isSome_iff_eq_none.mp hs, by simpa using hl⟩

/-- Witness for C6: after one submit a session is in flight and a second
submit is a no-op. -/
theorem send_single_flight_witness :
    step (runEvents [OEvent.submit ("hi")]) (OEvent.submit ("again"))
      = runEvents [OEvent.submit ("hi")] :=
  (send_single_flight [OEvent.submit ("hi")] ("again")).1 (by decide)

/-- C10: the orchestrator stores only trimmed, non-empty user messages, and
a submit whose trimmed text is empty, or which arrives while a stream is in
flight, is a complete no-op (no message appended, no session opened, input
left alone). -/
theorem user_messages_trimmed (evs : List OEvent) :
    (∀ m ∈ (runEvents evs).messages, m.role = Role.user →
        m.content ≠ "" ∧ trimS m.content = m.content) ∧
    (∀ t, trimS t = "" ∨ (runEvents evs).isLoading = true →
        step (runEvents evs) (OEvent.submit t) = runEvents evs) := by
  constructor
  · exact run_userClean evs initSt (by simp [initSt])
  · intro t hg
    simp [step, hg]

/-- Witness for C10: the submitted text is stored trimmed and non-empty, and
an all-whitespace submission is a no-op. -/
theorem user_messages_trimmed_witness :
    ((⟨Role.user, "hi"⟩ : OMsg).content ≠ "" ∧
        trimS (⟨Role.user, "hi"⟩ : OMsg).content = (⟨Role.user, "hi"⟩ : OMsg).content) ∧
    step (runEvents [OEvent.submit (" hi ")]) (OEvent.submit ("   "))
      = runEvents [OEvent.submit (" hi ")] :=
  ⟨(user_messages_trimmed [OEvent.submit (" hi ")]).1 ⟨Role.user, "hi"⟩ (by decide) (by decide),
    (user_messages_trimmed [OEvent.submit (" hi ")]).2 ("   ") (by decide)⟩

/-- C2 counterexample: with the capture capability unavailable the run is a
failed run (it rejects with a classified message) yet its state sequence is
idle → error, not the claimed idle → listening → error. -/
theorem voice_failed_run_counterexample :
    (startListeningRun false RecBehavior.silent).outcome = Outcome.rejected unsupportedMsg ∧
    (startListeningRun false RecBehavior.silent).trace
        = [VoiceState.idle, VoiceState.error] ∧
    (startListeningRun false RecBehavior.silent).trace
        ≠ [VoiceState.idle, VoiceState.listening, VoiceState.error] := by
  decide

/-- C2 amended: a successful run traverses exactly
idle → listening → processing → idle; a run ends in the error state only via
idle → error (capability unavailable) or idle → listening → error (a
recognition error other than aborted, or start throwing), always rejecting
with the classified message which is also stored; aborted, silent-end and
timed-out runs end in idle instead; error is terminal within a run (no
automatic transition out of it), and only `clearError` resets to idle. -/
theorem voice_state_machine (ctor : Bool) (beh : RecBehavior) :
    ((∀ t, (startListeningRun ctor beh).outcome = Outcome.resolved t →
        (startListeningRun ctor beh).trace
          = [VoiceState.idle, VoiceState.listening, VoiceState.processing, VoiceState.idle]) ∧
      ((startListeningRun ctor beh).trace.getLast? = some VoiceState.error →
        ((startListeningRun ctor beh).trace = [VoiceState.idle, VoiceState.error] ∨
          (startListeningRun ctor beh).trace
            = [VoiceState.idle, VoiceState.listening, VoiceState.error]) ∧
        (startListeningRun ctor beh).outcome
          = Outcome.rejected (startListeningRun ctor beh).errorMessage) ∧
      (VoiceState.error ∈ (startListeningRun ctor beh).trace →
        (startListeningRun ctor beh).trace.getLast? = some VoiceState.error)) ∧
    (∀ p, clearError p = (VoiceState.idle, "")) := by
  refine ⟨?_, fun p => rfl⟩
  cases hc : ctor with
  | false =>
    refine ⟨?_, ?_, ?_⟩ <;> simp [startListeningRun]
  | true =>
    cases beh with
    | result t =>
      refine ⟨?_, ?_, ?_⟩ <;> simp [startListeningRun, Outcome.resolved.injEq]
    | errEvent code =>
      by_cases ha : code = "aborted"
      · refine ⟨?_, ?_, ?_⟩ <;> simp [startListeningRun, ha]
      · refine ⟨?_, ?_, ?_⟩ <;> simp [startListeningRun, ha]
    | ends => refine ⟨?_, ?_, ?_⟩ <;> simp [startListeningRun]
    | silent => refine ⟨?_, ?_, ?_⟩ <;> simp [startListeningRun]
    | startThrows => refine ⟨?_, ?_, ?_⟩ <;> simp [startListeningRun]

/-- Witness for C2 (amended): a successful run and an error run evaluated
concretely. -/
theorem voice_state_machine_witness :
    (startListeningRun true (RecBehavior.result ("hello"))).trace
        = [VoiceState.idle, VoiceState.listening, VoiceState.processing, VoiceState.idle] ∧
    (startListeningRun true (RecBehavior.errEvent ("network"))).trace
        = [VoiceState.idle, VoiceState.listening, VoiceState.error] :=
  ⟨(voice_state_machine true (RecBehavior.result ("hello"))).1.1 ("hello") (by decide),
    ((voice_state_machine true (RecBehavior.errEvent ("network"))).1.2.1 (by decide)).1.resolve_left
      (by decide)⟩

/-- C5: against a recognition object that never calls back, the 10000 ms
timeout stops the capture, forces the state to idle (never error), and
rejects the pending promise with the no-speech message. -/
theorem listen_timeout_idle :
    (startListeningRun true RecBehavior.silent).stopCalled = true ∧
    (startListeningRun true RecBehavior.silent).trace
        = [VoiceState.idle, VoiceState.listening, VoiceState.idle] ∧
    VoiceState.error ∉ (startListeningRun true RecBehavior.silent).trace ∧
    (startListeningRun true RecBehavior.silent).outcome
        = Outcome.rejected noSpeechTimeoutMsg ∧
    (startListeningRun true RecBehavior.silent).settleTime = some listenTimeoutMs := by
  decide

theorem find?_eq_head?_filter {α : Type} (p : α → Bool) (l : List α) :
    l.find? p = (l.filter p).head? := by
  induction l with
  | nil => rfl
  | cons a t ih =>
    by_cases h : p a
    · simp [List.find?_cons_of_pos _ h, List.filter_cons_of_pos h]
    · simp only [List.find?_cons_of_neg _ h, List.filter_cons_of_neg h, ih]

/-- C7: voice selection is a strict first-match priority chain over the
catalog order — the first voice with the exact tag; otherwise the first
whose tag starts with the primary language subtag; otherwise the first
English-tagged voice; otherwise none.  No scoring is involved: each tier is
decided by the head of its filter. -/
theorem findVoice_priority (voices : List SynthVoice) (lang : String) :
    findVoice voices lang =
      match (voices.filter (fun v => v.lang == lang)).head? with
      | some v => some v
      | none =>
        match (voices.filter (fun v => langStarts v.lang (primarySubtag lang))).head? with
        | some v => some v
        | none => (voices.filter (fun v => langStarts v.lang ("en"))).head? := by
  unfold findVoice
  rw [find?_eq_head?_filter, find?_eq_head?_filter, find?_eq_head?_filter]
  cases (voices.filter (fun v => v.lang == lang)).head? with
  | some v => rfl
  | none =>
    cases (voices.filter (fun v => langStarts v.lang (primarySubtag lang))).head? with
    | some v => rfl
    | none =>
      cases (voices.filter (fun v => langStarts v.lang ("en"))).head? with
      | some v => rfl
      | none => rfl

/-- C8: toggleMute flips the mute flag; a transition into muted cancels the
active playback (the Bool component) and clears the speaking flag; a
transition out of muted performs no cancellation and leaves the speaking
flag (and hence playback) untouched. -/
theorem toggleMute_spec (s : PlayState) :
    ((toggleMute s).1.isMuted = !s.isMuted) ∧
    (s.isMuted = false →
      (toggleMute s).2 = true ∧ (toggleMute s).1.isSpeaking = false) ∧
    (s.isMuted = true →
      (toggleMute s).2 = false ∧ (toggleMute s).1.isSpeaking = s.isSpeaking) := by
  obtain ⟨m, sp⟩ := s
  cases m <;> simp [toggleMute]

/-- Witness for C8: toggling while unmuted and speaking stops playback;
toggling back does not resume. -/
theorem toggleMute_spec_witness :
    ((toggleMute ⟨false, true⟩).2 = true ∧ (toggleMute ⟨false, true⟩).1.isSpeaking = false) ∧
    ((toggleMute ⟨true, false⟩).2 = false ∧
      (toggleMute ⟨true, false⟩).1.isSpeaking = (⟨true, false⟩ : PlayState).isSpeaking) :=
  ⟨(toggleMute_spec ⟨false, true⟩).2.1 rfl, (toggleMute_spec ⟨true, false⟩).2.2 rfl⟩

/-- C3 (code divergence, evaluated): when speak is called with an empty
voice catalog and the catalog becomes ready at 100 ms, both the
voices-changed notification and the 500 ms fallback timer execute trySpeak —
two utterances are queued, with only one cancel (the one at entry), so the
dual-trigger guard the specification requires is absent. -/
theorem speak_double_fire :
    (speakRun ⟨false, true, [], some 100⟩ ("Hello")).utterStarts = [100, 500] ∧
    ((speakRun ⟨false, true, [], some 100⟩ ("Hello")).utterStarts).length = 2 ∧
    (speakRun ⟨false, true, [], some 100⟩ ("Hello")).cancelCalls = 1 := by
  decide

/-- C9 counterexample: with playback available and unmuted, a call whose
sanitized text is empty still cancels the active utterance — the cancel at
entry precedes the empty-text check — so speak is not a state-preserving
no-op in that case. -/
theorem speak_empty_cancels :
    sanitize ("**") = "" ∧
    (speakRun ⟨false, true, [⟨"Daniel", "en-GB"⟩], none⟩ ("**")).cancelCalls = 1 ∧
    speakRun ⟨false, true, [⟨"Daniel", "en-GB"⟩], none⟩ ("**")
      ≠ (⟨0, []⟩ : SpeakResult) := by
  decide

/-- C9 amended: speak is a complete silent no-op (no cancel, no utterance,
no error surfaced) when muted or when the playback capability is
unavailable; when it proceeds and the sanitized text is empty it starts no
utterance and surfaces no error, but it has already cancelled any active
utterance. -/
theorem speak_guard_noop (env : SpeakEnv) (text : String) :
    ((env.muted = true ∨ env.synthAvailable = false) →
        speakRun env text = (⟨0, []⟩ : SpeakResult)) ∧
    (env.muted = false → env.synthAvailable = true → sanitize text = "" →
        speakRun env text = (⟨1, []⟩ : SpeakResult)) := by
  obtain ⟨m, av, vs, rd⟩ := env
  constructor
  · rintro (hm | ha)
    · simp at hm
      simp [speakRun, hm]
    · simp at ha
      simp [speakRun, ha]
  · intro hm ha hs
    simp at hm ha
    simp [speakRun, hm, ha, hs]

/-- Witness for C9 (amended): a muted call does nothing at all; an unmuted
call on markup-only text performs exactly the entry cancel. -/
theorem speak_guard_noop_witness :
    speakRun ⟨true, true, [], none⟩ ("hello") = (⟨0, []⟩ : SpeakResult) ∧
    speakRun ⟨false, true, [], none⟩ ("**") = (⟨1, []⟩ : SpeakResult) :=
  ⟨(speak_guard_noop ⟨true, true, [], none⟩ ("hello")).1 (Or.inl rfl),
    (speak_guard_noop ⟨false, true, [], none⟩ ("**")).2 rfl rfl (by decide)⟩

/-- C4 counterexample: the sanitizer maps the specification's example input
to a different string than the one the specification asserts — the link text
is kept and the final trim leaves no trailing space. -/
theorem sanitize_example_counterexample :
    sanitize ("**Hello** [link](url)\n\nWorld") = "Hello link. World" ∧
    ("Hello link. World" : String) ≠ "Hello World. " := by
  decide

/-- C4 amended: on the example input the sanitizer produces exactly
"Hello link. World" — markers stripped, the link collapsed to its text, the
newline run collapsed to a sentence break, whitespace runs collapsed, and
the result trimmed. -/
theorem sanitize_example :
    sanitize ("**Hello** [link](url)\n\nWorld") = "Hello link. World" := by
  decide
